import Mathlib

/-!
Verification development for the accessibility compliance engine of the
storyblok-ai-assistant repository.  The definitions below are a shallow
embedding of `src/lib/wcag-validator.tsx` (classes `WCAGValidator` and
`ImageAnalyzer`) and of the `AccessibilityChecker` / `GeminiClient` pair
(`src/unnamed/part_005`).  JavaScript regex scans over the content string are
embedded as explicit character-list scanners with the same matching semantics;
the external AI provider and the floating-point colour library are modelled as
oracle parameters, since their outputs cross the process boundary (network and
IEEE floats respectively).  All definitions are executable.
-/

set_option maxRecDepth 10000

/-- Severity levels of `ValidationResult` / `AccessibilityIssue`. -/
inductive Severity
  | high
  | medium
  | low
deriving DecidableEq

/-- Fixed severity→weight table used by `WCAGValidator.calculateScore`. -/
def severityWeight : Severity → Nat
  | .high => 15
  | .medium => 10
  | .low => 5

/-- Embedding of the `ValidationResult` interface of `wcag-validator.tsx`. -/
structure ValidationResult where
  ruleId : String
  passed : Bool
  severity : Severity
  element : Option String
  message : String
  suggestion : String
  autoFixable : Bool
deriving DecidableEq

/-- Image descriptor `{src, alt?, data?, mimeType?}` accepted by
`AccessibilityChecker.checkContent` and `WCAGValidator.validateContent`. -/
structure ImageInput where
  src : String
  alt : Option String
  data : Option String
  mimeType : Option String
deriving DecidableEq

/-- The content string viewed as a character list (all scanning happens at
this level so that every definition reduces inside the kernel). -/
abbrev Chars := List Char

/-- JavaScript `String.prototype.trim`: strip leading and trailing
whitespace. -/
def jsTrim (l : Chars) : Chars :=
  ((l.dropWhile Char.isWhitespace).reverse.dropWhile Char.isWhitespace).reverse

/-- Embedding of `WCAGValidator.calculateScore`: filter the failed results,
fold the severity weights, clamp at zero. -/
def calculateScore (results : List ValidationResult) : Int :=
  let totalDeduction :=
    (results.filter fun r => !r.passed).foldl
      (fun sum r => sum + severityWeight r.severity) 0
  max 0 (100 - (totalDeduction : Int))

/-- Embedding of `WCAGValidator.isGenericAltText`
(`altText.toLowerCase().trim()` against the generic-term blocklist, exact or
as a leading/trailing space-separated token). -/
def isGenericAltText (altText : String) : Bool :=
  let genericTerms := ["image", "picture", "photo", "graphic", "icon", "logo",
    "banner", "untitled", "img", "pic", "screenshot"]
  let lowerAlt := jsTrim (altText.toList.map Char.toLower)
  genericTerms.any fun term =>
    lowerAlt == term.toList
      || (term.toList ++ [' ']).isPrefixOf lowerAlt
      || ([' '] ++ term.toList).isSuffixOf lowerAlt

/-- The JavaScript test `!image.alt || image.alt.trim().length === 0`
(an absent alt, the empty string, or whitespace only). -/
def altIsMissing : Option String → Bool
  | none => true
  | some a => a == "" || (jsTrim a.toList).length == 0

/-- The `element` label `Image ${index + 1} (${image.src})` built by
`WCAGValidator.validateImages`. -/
def imageElementLabel (index : Nat) (img : ImageInput) : String :=
  "Image " ++ toString (index + 1) ++ " (" ++ img.src ++ ")"

/-- Per-image body of the `images.forEach` loop in
`WCAGValidator.validateImages`: the missing-alt, over-125-characters and
generic-alt checks form one `if / else if / else if` chain. -/
def validateImage (index : Nat) (img : ImageInput) : List ValidationResult :=
  let element := imageElementLabel index img
  if altIsMissing img.alt then
    [{ ruleId := "1.1.1", passed := false, severity := .high,
       element := some element,
       message := "Image is missing alt text",
       suggestion := "Add descriptive alt text that conveys the purpose and content of the image",
       autoFixable := true }]
  else if (img.alt.getD "").length > 125 then
    [{ ruleId := "1.1.1", passed := false, severity := .medium,
       element := some element,
       message := "Alt text is too long (over 125 characters)",
       suggestion := "Shorten alt text while maintaining essential information",
       autoFixable := true }]
  else if isGenericAltText (img.alt.getD "") then
    [{ ruleId := "1.1.1", passed := false, severity := .medium,
       element := some element,
       message := "Alt text appears to be generic or non-descriptive",
       suggestion := "Use more specific, descriptive alt text that explains the image content",
       autoFixable := true }]
  else []

/-- Embedding of `WCAGValidator.validateImages`. -/
def validateImages (images : List ImageInput) : List ValidationResult :=
  (images.enum.map fun p => validateImage p.1 p.2).flatten

/-! ### Character-list scanners

The validators scan the content string with JavaScript regexes.  We embed the
content as a `List Char` and realise each regex as a deterministic scanner
with the same matching semantics (leftmost match, greedy character classes,
lazy `(.*?)` bodies, case-insensitive literals). -/

/-- The double-quote character. -/
def dq : Char := Char.ofNat 34

/-- The single-quote character. -/
def sqc : Char := Char.ofNat 39

/-- Case-insensitive comparison of two characters (the `i` regex flag). -/
def lowerEq (a b : Char) : Bool := a.toLower == b.toLower

/-- Case-insensitive literal match: if `pat` is a prefix of `l` up to case,
return the rest of `l`. -/
def ciStarts : Chars → Chars → Option Chars
  | [], l => some l
  | _, [] => none
  | p :: ps, c :: cs => if lowerEq p c then ciStarts ps cs else none

/-- Match `[^X]*X`: the characters strictly before the first occurrence of
`stop`, and the rest after it; `none` when `stop` does not occur. -/
def takeThrough (stop : Char) : Chars → Option (Chars × Chars)
  | [] => none
  | c :: cs =>
    if c == stop then some ([], cs)
    else
      match takeThrough stop cs with
      | some (span, rest) => some (c :: span, rest)
      | none => none

/-- Repeated global matching (regex `g` flag / `exec` loop): try `step` at
each position, emit its result and resume after the match, else slide one
character.  `fuel` bounds the recursion; with `fuel = l.length` and a `step`
that always consumes at least one character this is exact. -/
def scanAll {α : Type} (step : Chars → Option (α × Chars)) :
    Nat → Chars → List α
  | 0, _ => []
  | _ + 1, [] => []
  | fuel + 1, c :: cs =>
    match step (c :: cs) with
    | some (a, rest) => a :: scanAll step fuel rest
    | none => scanAll step fuel cs

/-- First match of `step` over all positions (regex `String.match` without
`g`): leftmost wins. -/
def firstMatch {α : Type} (step : Chars → Option α) : Chars → Option α
  | [] => none
  | c :: cs =>
    match step (c :: cs) with
    | some a => some a
    | none => firstMatch step cs

/-- Last position where `step` matches (greedy `[^"]*` backtracking prefers
the rightmost viable occurrence). -/
def lastMatch {α : Type} (step : Chars → Option α) : Chars → Option α
  | [] => none
  | c :: cs =>
    match lastMatch step cs with
    | some a => some a
    | none => step (c :: cs)

/-- Existence of a match at some position (regex `test`). -/
def anyPos (p : Chars → Bool) : Chars → Bool
  | [] => false
  | c :: cs => p (c :: cs) || anyPos p cs

/-- Lazy body `(.*?)` up to a closing delimiter recognised by `close`;
`allowNl` is the `s` regex flag (whether `.` may match a newline). -/
def lazyBody (close : Chars → Option Chars) (allowNl : Bool) :
    Chars → Option (Chars × Chars)
  | [] => none
  | c :: cs =>
    match close (c :: cs) with
    | some rest => some ([], rest)
    | none =>
      if !allowNl && c == '\n' then none
      else
        match lazyBody close allowNl cs with
        | some (b, r) => some (c :: b, r)
        | none => none

/-- Global replace of `<[^>]*>` (strip markup), inserting `repl` for each
tag; used with `repl = []` by the heading text extraction and with
`repl = [' ']` by `extractImageContext`. -/
def stripTagsWith (repl : Chars) : Nat → Chars → Chars
  | 0, l => l
  | _ + 1, [] => []
  | fuel + 1, c :: cs =>
    if c == '<' then
      match takeThrough '>' cs with
      | some (_, rest) => repl ++ stripTagsWith repl fuel rest
      | none => c :: stripTagsWith repl fuel cs
    else c :: stripTagsWith repl fuel cs

/-! ### Heading extraction (`/<h([1-6])[^>]*>(.*?)<\/h[1-6]>/gi`) -/

/-- Is the character one of `1`…`6` (the `[1-6]` class)? -/
def isH16 (d : Char) : Bool := '1' ≤ d && d ≤ '6'

/-- The closing tag `<\/h[1-6]>` (case-insensitive; the closing digit need
not equal the opening one). -/
def matchHeadingClose : Chars → Option Chars
  | '<' :: '/' :: c :: d :: '>' :: rest =>
    if lowerEq c 'h' && isH16 d then some rest else none
  | _ => none

/-- One match of the heading regex at the current position: `<h`, a level
digit, `[^>]*>`, then the lazy body (no newline, `s` flag absent) up to a
closing heading tag.  Returns `((level, body), rest)`. -/
def matchHeadingAt (l : Chars) : Option ((Nat × Chars) × Chars) :=
  match l with
  | '<' :: c :: d :: rest =>
    if lowerEq c 'h' && isH16 d then
      match takeThrough '>' rest with
      | some (_, afterOpen) =>
        match lazyBody matchHeadingClose false afterOpen with
        | some (body, afterClose) =>
          some ((d.toNat - '0'.toNat, body), afterClose)
        | none => none
      | none => none
    else none
  | _ => none

/-- The heading list `{level, text}` extracted by `validateHeadings` and
`checkHeadingStructure`: tag-stripped, trimmed text in document order. -/
def extractHeadings (content : String) : List (Nat × String) :=
  let cs := content.toList
  (scanAll matchHeadingAt cs.length cs).map fun p =>
    (p.1, String.mk (jsTrim (stripTagsWith [] p.2.length p.2)))

/-- Embedding of `WCAGValidator.validateHeadings`: H1-count checks, then
adjacent-pair hierarchy checks, then empty/short text checks. -/
def validateHeadings (content : String) : List ValidationResult :=
  let headings := extractHeadings content
  let h1Count := (headings.filter fun h => h.1 == 1).length
  let h1Results : List ValidationResult :=
    if h1Count == 0 then
      [{ ruleId := "2.4.6", passed := false, severity := .high, element := none,
         message := "Page is missing an H1 heading",
         suggestion := "Add a main H1 heading that describes the page content",
         autoFixable := false }]
    else if h1Count > 1 then
      [{ ruleId := "2.4.6", passed := false, severity := .medium, element := none,
         message := "Page has multiple H1 headings",
         suggestion := "Use only one H1 heading per page",
         autoFixable := false }]
    else []
  let hierarchy : List ValidationResult :=
    ((headings.zip headings.tail).enum.map fun p =>
      let i := p.1 + 1
      let previous := p.2.1
      let current := p.2.2
      if current.1 > previous.1 + 1 then
        [{ ruleId := "1.3.1", passed := false, severity := .medium,
           element := some ("Heading " ++ toString (i + 1)),
           message := "Heading level skips from H" ++ toString previous.1
             ++ " to H" ++ toString current.1,
           suggestion := "Use H" ++ toString (previous.1 + 1)
             ++ " instead of H" ++ toString current.1
             ++ " to maintain proper hierarchy",
           autoFixable := true }]
      else []).flatten
  let emptyShort : List ValidationResult :=
    (headings.enum.map fun p =>
      if p.2.2 == "" then
        [{ ruleId := "2.4.6", passed := false, severity := .high,
           element := some ("Heading " ++ toString (p.1 + 1)),
           message := "Heading is empty",
           suggestion := "Add descriptive text that explains the section content",
           autoFixable := false }]
      else if p.2.2.length < 3 then
        [{ ruleId := "2.4.6", passed := false, severity := .low,
           element := some ("Heading " ++ toString (p.1 + 1)),
           message := "Heading text is very short",
           suggestion := "Consider using more descriptive heading text",
           autoFixable := false }]
      else []).flatten
  h1Results ++ hierarchy ++ emptyShort

/-! ### Colour contrast (`WCAGValidator.validateColorContrast`)

The numeric part — `Color(...)` parsing, the WCAG contrast ratio and its
`toFixed(2)` rendering — lives in the floating-point `color` library, so it is
modelled as an oracle: `parseFailure` is the thrown exception of an invalid
colour literal, `ratio value display` a computed contrast ratio together with
its rendered text.  Which style declarations reach the oracle, and how each
outcome turns into a `ValidationResult`, follow the source exactly. -/

/-- Outcome of the colour parsing / contrast computation for one
`color` / `background-color` pair. -/
inductive ColorContrastOutcome
  | parseFailure
  | ratio (value : ℚ) (display : String)

/-- Oracle for `Color(text).contrast(Color(background))`. -/
abbrev ContrastOracle := String → String → ColorContrastOutcome

/-- One match of `style="([^"]*)"` at the current position: the captured
style text and the rest after the closing quote. -/
def matchStyleAt (l : Chars) : Option (Chars × Chars) :=
  match ciStarts ("style=".toList ++ [dq]) l with
  | some rest => takeThrough dq rest
  | none => none

/-- One match of `KEY\s*([^;]+)` at the current position of a style string
(`KEY` is `color:` or `background-color:`): skip whitespace, capture greedily
up to the first `;`.  When the region before the `;` is whitespace only, the
backtracking regex still matches with a single-space capture. -/
def matchColorDeclAt (key : Chars) (l : Chars) : Option Chars :=
  match ciStarts key l with
  | some rest =>
    let beforeSemi := rest.takeWhile fun c => c != ';'
    if beforeSemi.isEmpty then none
    else
      let afterWs := beforeSemi.dropWhile Char.isWhitespace
      if afterWs.isEmpty then some (beforeSemi.drop (beforeSemi.length - 1))
      else some afterWs
  | none => none

/-- Embedding of `WCAGValidator.validateColorContrast`. -/
def validateColorContrast (oracle : ContrastOracle) (content : String) :
    List ValidationResult :=
  let cs := content.toList
  let styles := scanAll matchStyleAt cs.length cs
  (styles.map fun style =>
    let colorMatch := firstMatch (matchColorDeclAt "color:".toList) style
    let bgColorMatch :=
      firstMatch (matchColorDeclAt "background-color:".toList) style
    match colorMatch, bgColorMatch with
    | some cv, some bv =>
      match oracle (String.mk (jsTrim cv)) (String.mk (jsTrim bv)) with
      | .ratio contrast display =>
        if contrast < (9 : ℚ) / 2 then
          [{ ruleId := "1.4.3", passed := false,
             severity := if contrast < 3 then .high else .medium,
             element := none,
             message := "Color contrast ratio is " ++ display
               ++ ":1 (minimum required: 4.5:1)",
             suggestion := "Increase contrast between text and background colors",
             autoFixable := false }]
        else []
      | .parseFailure =>
        [{ ruleId := "1.4.3", passed := false, severity := .low, element := none,
           message := "Unable to parse color values for contrast checking",
           suggestion := "Use valid CSS color values",
           autoFixable := false }]
    | _, _ => []).flatten

/-! ### Semantic structure (`WCAGValidator.validateSemanticStructure`) -/

/-- Open tag `<NAME[^>]*>` (case-insensitive) at the current position; returns
the rest after the `>`. -/
def tryOpenTag (name : String) (l : Chars) : Option Chars :=
  match l with
  | '<' :: rest =>
    match ciStarts name.toList rest with
    | some r2 =>
      match takeThrough '>' r2 with
      | some (_, after) => some after
      | none => none
    | none => none
  | _ => none

/-- Case-insensitive literal closing tag used as a `lazyBody` delimiter. -/
def ciClose (tag : String) (l : Chars) : Option Chars := ciStarts tag.toList l

/-- One match of `<(ul|ol)[^>]*>(.*?)<\/\1>` (flags `gis`) at the current
position: the list body and the rest after the matching close tag. -/
def matchListAt (l : Chars) : Option (Chars × Chars) :=
  match tryOpenTag "ul" l with
  | some after => lazyBody (ciClose "</ul>") true after
  | none =>
    match tryOpenTag "ol" l with
    | some after => lazyBody (ciClose "</ol>") true after
    | none => none

/-- Existence of a `<li[^>]*>.*?<\/li>` match (flags `gi`, `.` excludes
newline) inside a list body. -/
def hasLiItem (body : Chars) : Bool :=
  anyPos (fun l =>
    match tryOpenTag "li" l with
    | some after => (lazyBody (ciClose "</li>") false after).isSome
    | none => false) body

/-- One match of `<table[^>]*>(.*?)<\/table>` (flags `gis`) at the current
position. -/
def matchTableAt (l : Chars) : Option (Chars × Chars) :=
  match tryOpenTag "table" l with
  | some after => lazyBody (ciClose "</table>") true after
  | none => none

/-- The `scope\s*=\s*["'](?:col|row)["']` test (case-insensitive). -/
def scopeAttrAt (l : Chars) : Bool :=
  match ciStarts "scope".toList l with
  | some r1 =>
    match r1.dropWhile Char.isWhitespace with
    | '=' :: r2 =>
      match r2.dropWhile Char.isWhitespace with
      | q :: r3 =>
        (q == dq || q == sqc) &&
          ((match ciStarts "col".toList r3 with
            | some (q2 :: _) => q2 == dq || q2 == sqc
            | _ => false)
          || (match ciStarts "row".toList r3 with
              | some (q2 :: _) => q2 == dq || q2 == sqc
              | _ => false))
      | [] => false
    | _ => false
  | none => false

/-- The `hasHeaders` test of a table body: a `<th[^>]*>` match or a
`scope="col"/"row"` attribute. -/
def tableHasHeaders (body : Chars) : Bool :=
  anyPos (fun l => (tryOpenTag "th" l).isSome) body || anyPos scopeAttrAt body

/-- Embedding of `WCAGValidator.validateSemanticStructure`. -/
def validateSemanticStructure (content : String) : List ValidationResult :=
  let cs := content.toList
  let listResults :=
    ((scanAll matchListAt cs.length cs).map fun body =>
      if hasLiItem body then []
      else
        [{ ruleId := "1.3.1", passed := false, severity := .medium,
           element := none,
           message := "List element contains no list items",
           suggestion := "Add <li> elements inside list containers or remove empty list",
           autoFixable := false }]).flatten
  let tableResults :=
    ((scanAll matchTableAt cs.length cs).map fun body =>
      if tableHasHeaders body then []
      else
        [{ ruleId := "1.3.1", passed := false, severity := .medium,
           element := none,
           message := "Table is missing proper headers",
           suggestion := "Add <th> elements or scope attributes to identify table headers",
           autoFixable := false }]).flatten
  listResults ++ tableResults

/-! ### ARIA checks (`WCAGValidator.validateARIA`) -/

/-- One match of `<(button|input|select|textarea)[^>]*>` (flags `gi`) at the
current position: the lowercase tag name, the matched element text `match[0]`,
and the rest after the `>`. -/
def tryInteractive (name : String) (l : Chars) :
    Option ((String × Chars) × Chars) :=
  match l with
  | '<' :: rest =>
    match ciStarts name.toList rest with
    | some r2 =>
      match takeThrough '>' r2 with
      | some (span, after) =>
        some ((name, l.take (1 + name.length + span.length + 1)), after)
      | none => none
    | none => none
  | _ => none

/-- Alternation over the four interactive tag names. -/
def matchInteractiveAt (l : Chars) : Option ((String × Chars) × Chars) :=
  (tryInteractive "button" l).orElse fun _ =>
    (tryInteractive "input" l).orElse fun _ =>
      (tryInteractive "select" l).orElse fun _ =>
        tryInteractive "textarea" l

/-- Pattern `PAT\s*=` (case-insensitive) at the current position. -/
def keyEqAt (pat : String) (l : Chars) : Bool :=
  match ciStarts pat.toList l with
  | some r =>
    match r.dropWhile Char.isWhitespace with
    | '=' :: _ => true
    | _ => false
  | none => false

/-- Pattern `type\s*=\s*["']submit["']` (case-insensitive) at the current
position. -/
def typeSubmitAt (l : Chars) : Bool :=
  match ciStarts "type".toList l with
  | some r1 =>
    match r1.dropWhile Char.isWhitespace with
    | '=' :: r2 =>
      match r2.dropWhile Char.isWhitespace with
      | q :: r3 =>
        (q == dq || q == sqc) &&
          (match ciStarts "submit".toList r3 with
           | some (q2 :: _) => q2 == dq || q2 == sqc
           | _ => false)
      | [] => false
    | _ => false
  | none => false

/-- The `hasLabel` test of `validateARIA`, applied to one matched element. -/
def hasAccessibleLabel (tagName : String) (element : Chars) : Bool :=
  anyPos (keyEqAt "aria-label") element
    || anyPos (keyEqAt "aria-labelledby") element
    || (tagName == "input" && anyPos typeSubmitAt element)
    || (tagName == "input" && anyPos (keyEqAt "value") element)

/-- The button-content lookup: first match in the whole content of the
escaped element literal followed by `(.*?)<\/button>` (flag `i`); `true` when
there is no match or the captured body trims to the empty string. -/
def buttonBodyEmpty (content : Chars) (element : Chars) : Bool :=
  match firstMatch (fun l =>
      match ciStarts element l with
      | some rest => lazyBody (ciClose "</button>") false rest
      | none => none) content with
  | some (body, _) => String.mk (jsTrim body) == ""
  | none => true

/-- One match of `aria-([a-z]+)\s*=` (flags `gi`) at the current position:
the captured attribute name (original case) and the rest after the `=`. -/
def matchAriaAttrAt (l : Chars) : Option (String × Chars) :=
  match ciStarts "aria-".toList l with
  | some r1 =>
    let letters := r1.takeWhile fun c => 'a' ≤ c.toLower && c.toLower ≤ 'z'
    if letters.isEmpty then none
    else
      match (r1.drop letters.length).dropWhile Char.isWhitespace with
      | '=' :: rest => some (String.mk letters, rest)
      | _ => none
  | none => none

/-- Embedding of `WCAGValidator.isValidARIAAttribute` (case-sensitive
whitelist). -/
def isValidARIAAttribute (attrName : String) : Bool :=
  ["label", "labelledby", "describedby", "expanded", "hidden", "live",
   "atomic", "busy", "controls", "current", "details", "disabled",
   "dropeffect", "errormessage", "flowto", "grabbed", "haspopup", "invalid",
   "keyshortcuts", "level", "modal", "multiline", "multiselectable",
   "orientation", "owns", "placeholder", "posinset", "pressed", "readonly",
   "relevant", "required", "roledescription", "rowcount", "rowindex",
   "rowspan", "selected", "setsize", "sort", "valuemax", "valuemin",
   "valuenow", "valuetext"].contains attrName

/-- Embedding of `WCAGValidator.validateARIA`: per-element accessible-name
checks, then the invalid-ARIA-attribute scan. -/
def validateARIA (content : String) : List ValidationResult :=
  let cs := content.toList
  let interactiveResults :=
    ((scanAll matchInteractiveAt cs.length cs).map fun p =>
      let tagName := p.1
      let element := p.2
      let hasLabel := hasAccessibleLabel tagName element
      let buttonIssue :=
        if !hasLabel && tagName == "button" then
          if buttonBodyEmpty cs element then
            [{ ruleId := "4.1.2", passed := false, severity := .high,
               element := some "Button element",
               message := "Button is missing accessible name",
               suggestion := "Add aria-label attribute or text content to button",
               autoFixable := false }]
          else []
        else []
      let inputIssue :=
        if !hasLabel && tagName == "input" then
          [{ ruleId := "4.1.2", passed := false, severity := .high,
             element := some "Input element",
             message := "Input is missing accessible name",
             suggestion := "Add aria-label, aria-labelledby, or associated label element",
             autoFixable := false }]
        else []
      buttonIssue ++ inputIssue).flatten
  let attrResults :=
    ((scanAll matchAriaAttrAt cs.length cs).map fun attrName =>
      if isValidARIAAttribute attrName then []
      else
        [{ ruleId := "4.1.2", passed := false, severity := .low, element := none,
           message := "Invalid ARIA attribute: aria-" ++ attrName,
           suggestion := "Use valid ARIA attributes according to the specification",
           autoFixable := false }]).flatten
  interactiveResults ++ attrResults

/-- Embedding of `WCAGValidator.validateContent`: the fixed check order
images → headings → colour contrast → semantic structure → ARIA. -/
def validateContent (oracle : ContrastOracle) (content : String)
    (images : List ImageInput) : List ValidationResult :=
  validateImages images ++ validateHeadings content
    ++ validateColorContrast oracle content
    ++ validateSemanticStructure content
    ++ validateARIA content

/-! ### `ImageAnalyzer` (AI boundary of `wcag-validator.tsx`)

The Gemini call and the best-effort parsing of its response are the external
capability; we model them as an oracle that either produces an
`ImageAnalysis` or fails (exception / timeout).  `analyzeImage`'s `try/catch`
then substitutes `getFallbackAnalysis`. -/

/-- Confidence levels of an `ImageAnalysis`. -/
inductive Confidence
  | high
  | medium
  | low
deriving DecidableEq

/-- The `accessibility` sub-object of an `ImageAnalysis`. -/
structure ImageAccessibility where
  hasText : Bool
  isComplex : Bool
  needsLongDescription : Bool
  suggestedLongDescription : Option String
deriving DecidableEq

/-- Embedding of the `ImageAnalysis` interface. -/
structure ImageAnalysis where
  altText : String
  confidence : Confidence
  description : String
  context : String
  decorative : Bool
  textContent : Option String
  accessibility : ImageAccessibility
deriving DecidableEq

/-- Embedding of `ImageAnalyzer.getFallbackAnalysis`, the neutral
low-confidence placeholder. -/
def getFallbackAnalysis : ImageAnalysis :=
  { altText := "Image description not available"
    confidence := .low
    description := "Unable to analyze image"
    context := "Analysis failed"
    decorative := false
    textContent := none
    accessibility :=
      { hasText := false, isComplex := false, needsLongDescription := false,
        suggestedLongDescription := none } }

/-- Embedding of `ImageAnalyzer.analyzeImage` over the provider response: a
successful response yields its analysis, any failure is caught and replaced by
the fallback. -/
def analyzeImage (response : Except Unit ImageAnalysis) : ImageAnalysis :=
  match response with
  | .ok analysis => analysis
  | .error _ => getFallbackAnalysis

/-! ### `AccessibilityChecker` (`src/unnamed/part_005`) -/

/-- The `type` field of an `AccessibilityIssue`
(`alt-text | contrast | heading | aria | semantic`). -/
inductive IssueType
  | altText
  | contrast
  | heading
  | aria
  | semantic
deriving DecidableEq

/-- Embedding of the `AccessibilityIssue` interface. -/
structure AccessibilityIssue where
  id : String
  type : IssueType
  severity : Severity
  element : String
  description : String
  recommendation : String
  autoFixable : Bool
deriving DecidableEq

/-- The report returned by `AccessibilityChecker.checkContent`. -/
structure AccessibilityReport where
  score : Int
  issues : List AccessibilityIssue
  suggestions : List String
  imageAnalyses : List (String × ImageAnalysis)
deriving DecidableEq

/-- Embedding of `AccessibilityChecker.mapWCAGRuleToType` (fixed table with
`semantic` fallback). -/
def mapWCAGRuleToType (ruleId : String) : IssueType :=
  if ruleId == "1.1.1" then .altText
  else if ruleId == "1.4.3" then .contrast
  else if ruleId == "1.3.1" then .semantic
  else if ruleId == "2.4.6" then .heading
  else if ruleId == "4.1.2" then .aria
  else .semantic

/-- JavaScript `x || d` over an optional string (absent and empty are both
falsy). -/
def jsOrString (o : Option String) (d : String) : String :=
  match o with
  | some s => if s == "" then d else s
  | none => d

/-- The `wcagResults.forEach` conversion loop of `checkContent`: each failed
`ValidationResult` becomes an issue `wcag-${ruleId}-${index}`. -/
def wcagIssuesOf (results : List ValidationResult) : List AccessibilityIssue :=
  (results.enum.map fun p =>
    if !p.2.passed then
      [{ id := "wcag-" ++ p.2.ruleId ++ "-" ++ toString p.1,
         type := mapWCAGRuleToType p.2.ruleId,
         severity := p.2.severity,
         element := jsOrString p.2.element "Content element",
         description := p.2.message,
         recommendation := p.2.suggestion,
         autoFixable := p.2.autoFixable }]
    else []).flatten

/-- One match of the dynamically built
`<img[^>]*src=["']SRC["'][^>]*>` regex (flag `i`) at the current position:
`src=` followed by a quote, the case-insensitively escaped `src` literal and a
quote, all inside the non-`>` span of an `<img` tag. -/
def srcAttrAt (src : Chars) (l : Chars) : Bool :=
  match ciStarts "src=".toList l with
  | some (q :: r2) =>
    (q == dq || q == sqc) &&
      (match ciStarts src r2 with
       | some (q2 :: _) => q2 == dq || q2 == sqc
       | _ => false)
  | _ => false

/-- The matched `<img …>` tag text for `extractImageContext`: at the current
position, `<img`, a non-`>` span containing the `src` attribute pattern, and
the closing `>`. -/
def matchImgTagAt (src : Chars) (l : Chars) : Option Chars :=
  match ciStarts "<img".toList l with
  | some r1 =>
    match takeThrough '>' r1 with
    | some (span, _) =>
      if anyPos (fun s => srcAttrAt src s) span then
        some (l.take (4 + span.length + 1))
      else none
    | none => none
  | none => none

/-- Index of the first exact occurrence of `needle` in `hay`
(JavaScript `String.indexOf`). -/
def indexOfSub : Chars → Chars → Option Nat
  | [], needle => if needle.isEmpty then some 0 else none
  | c :: cs, needle =>
    if needle.isPrefixOf (c :: cs) then some 0
    else (indexOfSub cs needle).map (· + 1)

/-- Embedding of `AccessibilityChecker.extractImageContext`: find the image
tag, take the ±200-character window around it, replace markup by spaces and
trim. -/
def extractImageContext (content : String) (imageSrc : String) : String :=
  let cs := content.toList
  match firstMatch (matchImgTagAt imageSrc.toList) cs with
  | some matched =>
    match indexOfSub cs matched with
    | some imgIndex =>
      let contextStart := imgIndex - 200
      let contextEnd := min cs.length (imgIndex + matched.length + 200)
      let window := (cs.drop contextStart).take (contextEnd - contextStart)
      String.mk (jsTrim (stripTagsWith [' '] window.length window))
    | none => ""
  | none => ""

/-- Embedding of `AccessibilityChecker.hasTextAlternative`: at least 50
characters of stripped context around the image. -/
def hasTextAlternative (content : String) (imageSrc : String) : Bool :=
  (extractImageContext content imageSrc).length > 50

/-- Oracle for one `imageAnalyzer.analyzeImage(data, mimeType, context)`
provider call, by image index and call arguments; `Except.error` is an
exception or timeout inside the provider call or response parsing. -/
abbrev ImageOracle := Nat → String → String → String → Except Unit ImageAnalysis

/-- JavaScript template interpolation of a possibly-`undefined` string. -/
def jsInterpolate (o : Option String) : String := o.getD "undefined"

/-- One iteration of the `for (const [index, image] of images.entries())`
loop of `checkContent`: an image with both `data` and `mimeType` is analyzed
(entry pushed, then up to three AI-derived issues); otherwise the loop body is
skipped entirely. -/
def aiImageContribution (imgOracle : ImageOracle) (content : String)
    (index : Nat) (image : ImageInput) :
    List (String × ImageAnalysis) × List AccessibilityIssue :=
  match image.data, image.mimeType with
  | some d, some m =>
    let analysis :=
      analyzeImage (imgOracle index d m (extractImageContext content image.src))
    let altFalsy := image.alt == none || image.alt == some ""
    let missingAltIssue :=
      if altFalsy && !analysis.decorative then
        [{ id := "ai-alt-text-" ++ toString index, type := .altText,
           severity := .high,
           element := "Image " ++ toString (index + 1),
           description := "Image missing alt text (AI analysis suggests it\x27s informative)",
           recommendation := "Suggested alt text: \"" ++ analysis.altText ++ "\"",
           autoFixable := true }]
      else []
    let textIssue :=
      if analysis.accessibility.hasText
          && !hasTextAlternative content image.src then
        [{ id := "text-in-image-" ++ toString index, type := .altText,
           severity := .high,
           element := "Image " ++ toString (index + 1),
           description := "Image contains text but no text alternative is provided",
           recommendation := "Provide text alternative: \""
             ++ jsInterpolate analysis.textContent ++ "\"",
           autoFixable := true }]
      else []
    let longDescIssue :=
      if analysis.accessibility.needsLongDescription then
        [{ id := "complex-image-" ++ toString index, type := .altText,
           severity := .medium,
           element := "Image " ++ toString (index + 1),
           description := "Complex image may need long description",
           recommendation := jsOrString
             analysis.accessibility.suggestedLongDescription
             "Consider adding a detailed description",
           autoFixable := false }]
      else []
    ([(image.src, analysis)], missingAltIssue ++ textIssue ++ longDescIssue)
  | _, _ => ([], [])

/-- The whole image loop: analyses and AI-derived issues accumulated in image
list order. -/
def aiImagePass (imgOracle : ImageOracle) (content : String)
    (images : List ImageInput) :
    List (String × ImageAnalysis) × List AccessibilityIssue :=
  images.enum.foldl
    (fun acc p =>
      let c := aiImageContribution imgOracle content p.1 p.2
      (acc.1 ++ c.1, acc.2 ++ c.2))
    ([], [])

/-- Embedding of `AccessibilityChecker.checkHeadingStructure` (the checker's
own duplicate heading scan: adjacent hierarchy skips, then empty headings). -/
def checkHeadingStructure (content : String) : List AccessibilityIssue :=
  let headings := extractHeadings content
  let skips : List AccessibilityIssue :=
    ((headings.zip headings.tail).enum.map fun p =>
      let i := p.1 + 1
      let previous := p.2.1
      let current := p.2.2
      if current.1 > previous.1 + 1 then
        [{ id := "heading-skip-" ++ toString i, type := .heading,
           severity := .medium,
           element := "Heading " ++ toString (i + 1),
           description := "Heading level skips from h" ++ toString previous.1
             ++ " to h" ++ toString current.1,
           recommendation := "Use h" ++ toString (previous.1 + 1)
             ++ " instead of h" ++ toString current.1,
           autoFixable := true }]
      else []).flatten
  let empties : List AccessibilityIssue :=
    (headings.enum.map fun p =>
      if p.2.2 == "" then
        [{ id := "heading-empty-" ++ toString p.1, type := .heading,
           severity := .high,
           element := "Heading " ++ toString (p.1 + 1),
           description := "Heading is empty",
           recommendation := "Add descriptive text to the heading",
           autoFixable := false }]
      else []).flatten
  skips ++ empties

/-- Outcome of `Color(value).luminosity()` for the checker's simplified
contrast scan (`parseFailure` models the caught exception). -/
inductive LuminosityOutcome
  | parseFailure
  | value (lum : ℚ)

/-- Oracle for the `color` library's luminosity computation. -/
abbrev LuminosityOracle := String → LuminosityOutcome

/-- One match of `style="[^"]*color:\s*([^;]+)[^"]*"` (flags `gi`) at the
current position.  The greedy `[^"]*` prefers the last `color:` declaration
inside the quoted span; the capture runs to the first `;`.  (We confine the
capture to the quoted span, which coincides with the regex whenever the
captured value contains no quote character.) -/
def matchStyleColorAt (l : Chars) : Option (Chars × Chars) :=
  match ciStarts ("style=".toList ++ [dq]) l with
  | some r1 =>
    match takeThrough dq r1 with
    | some (span, after) =>
      match lastMatch (matchColorDeclAt "color:".toList) span with
      | some valueChars => some (valueChars, after)
      | none => none
    | none => none
  | none => none

/-- Embedding of `AccessibilityChecker.checkColorContrast`: the issue counter
`index++` advances only when an issue is pushed, and parse failures are
silently ignored. -/
def checkColorContrast (lumOracle : LuminosityOracle) (content : String) :
    List AccessibilityIssue :=
  let cs := content.toList
  ((scanAll matchStyleColorAt cs.length cs).foldl
    (fun acc vc =>
      match lumOracle (String.mk (jsTrim vc)) with
      | .value lum =>
        if lum < (3 : ℚ) / 10 then
          let issue : AccessibilityIssue :=
            { id := "contrast-" ++ toString acc.2, type := .contrast,
              severity := .medium,
              element := "Text element",
              description := "Potential color contrast issue detected",
              recommendation := "Verify color contrast meets WCAG AA standards (4.5:1 ratio)",
              autoFixable := false }
          (acc.1 ++ [issue], acc.2 + 1)
        else acc
      | .parseFailure => acc)
    (([] : List AccessibilityIssue), (0 : Nat))).1

/-- One raw issue of the provider's parsed accessibility analysis
(`analysis.issues[i]`): fields that `convertGeminiAnalysisToIssues` defaults
are optional. -/
structure GeminiRawIssue where
  type : Option IssueType
  severity : Severity
  element : Option String
  description : Option String
  recommendation : Option String
  autoFixable : Bool
deriving DecidableEq

/-- Embedding of `AccessibilityChecker.convertGeminiAnalysisToIssues`. -/
def convertGeminiAnalysisToIssues (issues : List GeminiRawIssue) :
    List AccessibilityIssue :=
  issues.enum.map fun p =>
    { id := "gemini-" ++ toString p.1,
      type := p.2.type.getD .semantic,
      severity := p.2.severity,
      element := jsOrString p.2.element "Content element",
      description := jsOrString p.2.description "Accessibility issue detected",
      recommendation := jsOrString p.2.recommendation
        "Review and fix accessibility issue",
      autoFixable := p.2.autoFixable }

/-- Oracle for `geminiClient.analyzeContentAccessibility(content, [])`:
`Except.error` is a thrown error or a `success:false` response, `Except.ok
none` a success whose parsed analysis has no (falsy) `issues` field, and
`Except.ok (some l)` a success with an issue array. -/
abbrev ContentOracle := String → Except Unit (Option (List GeminiRawIssue))

/-- The AI content-analysis segment of `checkContent`. -/
def geminiIssuesOf (contentOracle : ContentOracle) (content : String) :
    List AccessibilityIssue :=
  match contentOracle content with
  | .ok (some rawIssues) => convertGeminiAnalysisToIssues rawIssues
  | _ => []

/-! ### Suggestion generation (`generateEnhancedSuggestions`)

The source accumulates into a JavaScript `Set<string>` and returns
`Array.from(set)`; a JS `Set` keeps first-insertion order and drops duplicate
adds, which is exactly `setAdd` on a list. -/

/-- One `suggestions.add(s)` on the insertion-ordered set. -/
def setAdd (l : List String) (s : String) : List String :=
  if s ∈ l then l else l ++ [s]

/-- Embedding of `AccessibilityChecker.generateEnhancedSuggestions`,
mirroring the source's sequence of `add` calls. -/
def generateEnhancedSuggestions (issues : List AccessibilityIssue)
    (imageAnalyses : List (String × ImageAnalysis)) : List String :=
  let s1 := issues.foldl (fun acc issue => setAdd acc issue.recommendation) []
  let issueTypes := issues.map fun issue => issue.type
  let s2 :=
    if issueTypes.contains .altText then
      let s2a := setAdd s1
        "Use AI-generated alt text as a starting point, then refine for your specific context"
      let decorativeImages := imageAnalyses.filter fun img => img.2.decorative
      if decorativeImages.length > 0 then
        setAdd s2a (toString decorativeImages.length
          ++ " image(s) appear decorative - consider using empty alt text (alt=\"\")")
      else s2a
    else s1
  let s3 :=
    if issueTypes.contains .contrast then
      setAdd s2 "Use a color contrast checker tool to verify all text meets WCAG AA standards"
    else s2
  let s4 :=
    if issueTypes.contains .heading then
      setAdd s3 "Structure headings hierarchically (H1 → H2 → H3) to create a logical document outline"
    else s3
  let textInImages := imageAnalyses.filter fun img => img.2.accessibility.hasText
  let s5 :=
    if textInImages.length > 0 then
      setAdd s4 "Consider replacing text-in-images with actual HTML text for better accessibility"
    else s4
  let complexImages := imageAnalyses.filter fun img =>
    img.2.accessibility.needsLongDescription
  if complexImages.length > 0 then
    setAdd s5 "Complex images (charts, diagrams) should include detailed descriptions or data tables"
  else s5

/-- The flat sequence of strings passed to `suggestions.add`, in source code
order; `generateEnhancedSuggestions` is its first-occurrence deduplication. -/
def suggestionSequence (issues : List AccessibilityIssue)
    (imageAnalyses : List (String × ImageAnalysis)) : List String :=
  let issueTypes := issues.map fun issue => issue.type
  (issues.map fun issue => issue.recommendation)
  ++ (if issueTypes.contains .altText then
        ["Use AI-generated alt text as a starting point, then refine for your specific context"]
        ++ (if (imageAnalyses.filter fun img => img.2.decorative).length > 0 then
              [toString (imageAnalyses.filter fun img => img.2.decorative).length
                ++ " image(s) appear decorative - consider using empty alt text (alt=\"\")"]
            else [])
      else [])
  ++ (if issueTypes.contains .contrast then
        ["Use a color contrast checker tool to verify all text meets WCAG AA standards"]
      else [])
  ++ (if issueTypes.contains .heading then
        ["Structure headings hierarchically (H1 → H2 → H3) to create a logical document outline"]
      else [])
  ++ (if (imageAnalyses.filter fun img => img.2.accessibility.hasText).length > 0 then
        ["Consider replacing text-in-images with actual HTML text for better accessibility"]
      else [])
  ++ (if (imageAnalyses.filter fun img =>
          img.2.accessibility.needsLongDescription).length > 0 then
        ["Complex images (charts, diagrams) should include detailed descriptions or data tables"]
      else [])

/-- First-occurrence deduplication of a list of strings (what a JS `Set`
built by successive `add`s contains, in order). -/
def firstDedup : List String → List String
  | [] => []
  | x :: xs => x :: firstDedup (xs.filter fun y => y != x)
termination_by l => l.length
decreasing_by
  simp only [List.length_cons]
  exact Nat.lt_succ_of_le (List.length_filter_le _ _)

/-! ### `AccessibilityChecker.checkContent` -/

/-- Embedding of `AccessibilityChecker.checkContent`.  The `issues` list is
accumulated exactly as in the source: WCAG conversion loop, image loop,
`checkHeadingStructure`, `checkColorContrast`, Gemini content analysis; the
score is `calculateScore(wcagResults)` and the suggestions are generated from
the final issue list and the collected analyses. -/
def checkContent (contrastOracle : ContrastOracle)
    (lumOracle : LuminosityOracle) (imgOracle : ImageOracle)
    (contentOracle : ContentOracle) (content : String)
    (images : List ImageInput) : AccessibilityReport :=
  let wcagResults := validateContent contrastOracle content images
  let issues0 := wcagIssuesOf wcagResults
  let aiPass := aiImagePass imgOracle content images
  let imageAnalyses := aiPass.1
  let issues1 := issues0 ++ aiPass.2
  let issues2 := issues1 ++ checkHeadingStructure content
  let issues3 := issues2 ++ checkColorContrast lumOracle content
  let issues4 := issues3 ++ geminiIssuesOf contentOracle content
  let score := calculateScore wcagResults
  let suggestions := generateEnhancedSuggestions issues4 imageAnalyses
  { score := score, issues := issues4, suggestions := suggestions,
    imageAnalyses := imageAnalyses }

/-! ### Named pipeline segments (for the ordering claims) -/

/-- The rule-validation segment of the merged issue list. -/
def ruleIssueSegment (contrastOracle : ContrastOracle) (content : String)
    (images : List ImageInput) : List AccessibilityIssue :=
  wcagIssuesOf (validateContent contrastOracle content images)

/-- The AI per-image issue segment of the merged issue list. -/
def aiImageIssueSegment (imgOracle : ImageOracle) (content : String)
    (images : List ImageInput) : List AccessibilityIssue :=
  (aiImagePass imgOracle content images).2

/-- The AI content-analysis segment of the merged issue list. -/
def aiContentIssueSegment (contentOracle : ContentOracle) (content : String) :
    List AccessibilityIssue :=
  geminiIssuesOf contentOracle content

/-- The score a reader of the specification would compute from the merged
issue list.  Modelled from the spec: `score = max(0, 100 − Σ weight(severity))`
over the issues of the report (the spec asserts the scoring engine consumes
the merged list); stated here only for comparison with the implementation. -/
def specScoreOfIssues (issues : List AccessibilityIssue) : Int :=
  max 0 (100 - ((issues.map fun i => (severityWeight i.severity : Int)).sum))

/-! ## Helper lemmas -/

/-- Folding severity weights from an arbitrary start equals the start plus
the mapped sum. -/
theorem foldl_weight_eq_sum (l : List ValidationResult) :
    ∀ n : Nat, l.foldl (fun sum r => sum + severityWeight r.severity) n
      = n + (l.map fun r => severityWeight r.severity).sum := by
  induction l with
  | nil => intro n; simp
  | cons r rs ih =>
    intro n
    simp only [List.foldl_cons, List.map_cons, List.sum_cons, ih]
    omega

/-- The Bool filters `!r.passed` and `r.passed == false` agree. -/
theorem not_passed_eq (r : ValidationResult) :
    (!r.passed) = (r.passed == false) := by
  cases r.passed <;> rfl

/-- Unfolded form of `aiImagePass`: the analyses and the AI issues are the
concatenations of the per-image contributions, in image list order. -/
theorem aiImagePass_foldl (imgOracle : ImageOracle) (content : String) :
    ∀ (l : List (Nat × ImageInput))
      (acc : List (String × ImageAnalysis) × List AccessibilityIssue),
      l.foldl (fun acc p =>
          let c := aiImageContribution imgOracle content p.1 p.2
          (acc.1 ++ c.1, acc.2 ++ c.2)) acc
        = (acc.1 ++ (l.map fun p =>
              (aiImageContribution imgOracle content p.1 p.2).1).flatten,
           acc.2 ++ (l.map fun p =>
              (aiImageContribution imgOracle content p.1 p.2).2).flatten) := by
  intro l
  induction l with
  | nil => intro acc; simp
  | cons x xs ih =>
    intro acc
    simp only [List.foldl_cons, List.map_cons, List.flatten_cons, ih,
      List.append_assoc]

/-- `aiImagePass` as a pair of flattened per-image contributions. -/
theorem aiImagePass_eq (imgOracle : ImageOracle) (content : String)
    (images : List ImageInput) :
    aiImagePass imgOracle content images
      = ((images.enum.map fun p =>
            (aiImageContribution imgOracle content p.1 p.2).1).flatten,
         (images.enum.map fun p =>
            (aiImageContribution imgOracle content p.1 p.2).2).flatten) := by
  unfold aiImagePass
  rw [aiImagePass_foldl]
  simp

/-- An image contribution depends on the oracle only through
`analyzeImage` of its response. -/
theorem aiImageContribution_congr (io io' : ImageOracle) (content : String)
    (index : Nat) (img : ImageInput)
    (h : ∀ d m c, analyzeImage (io index d m c) = analyzeImage (io' index d m c)) :
    aiImageContribution io content index img
      = aiImageContribution io' content index img := by
  obtain ⟨src, alt, data, mime⟩ := img
  cases data <;> cases mime <;> simp [aiImageContribution, h]

/-- Oracles whose responses analyze equally produce the same image pass. -/
theorem aiImagePass_congr (io io' : ImageOracle) (content : String)
    (images : List ImageInput)
    (h : ∀ j d m c, analyzeImage (io j d m c) = analyzeImage (io' j d m c)) :
    aiImagePass io content images = aiImagePass io' content images := by
  rw [aiImagePass_eq, aiImagePass_eq]
  have hmap : ∀ p ∈ images.enum,
      aiImageContribution io content p.1 p.2
        = aiImageContribution io' content p.1 p.2 := by
    intro p _
    exact aiImageContribution_congr io io' content p.1 p.2 (h p.1)
  have h1 := List.map_congr_left (l := images.enum)
    (f := fun p => (aiImageContribution io content p.1 p.2).1)
    (g := fun p => (aiImageContribution io' content p.1 p.2).1)
    (fun p hp => by simp only []; rw [hmap p hp])
  have h2 := List.map_congr_left (l := images.enum)
    (f := fun p => (aiImageContribution io content p.1 p.2).2)
    (g := fun p => (aiImageContribution io' content p.1 p.2).2)
    (fun p hp => by simp only []; rw [hmap p hp])
  rw [h1, h2]

/-! ## Claim C1 -/

/-- C1: `calculateScore` returns `max(0, 100 − Σ weight(severity))` over
exactly the results with `passed = false`; the empty failed set scores 100, a
single high-severity failure 85, and two high plus one medium failures 60. -/
theorem calculateScore_spec :
    (∀ results : List ValidationResult,
      calculateScore results
        = max 0 (100 - (((results.filter fun r => r.passed == false).map
            fun r => (severityWeight r.severity : Int)).sum)))
    ∧ calculateScore [] = 100
    ∧ calculateScore
        [{ ruleId := "2.4.6", passed := false, severity := .high,
           element := none, message := "m", suggestion := "s",
           autoFixable := false }] = 85
    ∧ calculateScore
        [{ ruleId := "1.1.1", passed := false, severity := .high,
           element := none, message := "m1", suggestion := "s1",
           autoFixable := true },
         { ruleId := "2.4.6", passed := false, severity := .high,
           element := none, message := "m2", suggestion := "s2",
           autoFixable := false },
         { ruleId := "1.3.1", passed := false, severity := .medium,
           element := none, message := "m3", suggestion := "s3",
           autoFixable := false }] = 60 := by
  refine ⟨?_, by decide, by decide, by decide⟩
  intro results
  unfold calculateScore
  have hfilter : (results.filter fun r => !r.passed)
      = results.filter fun r => r.passed == false := by
    apply List.filter_congr
    intro r _
    exact not_passed_eq r
  rw [hfilter, foldl_weight_eq_sum, Nat.zero_add]
  simp only [Nat.cast_list_sum, List.map_map]
  rfl

/-! ## Claim C2 -/

/-- C2: for every content string, image list and oracle behaviour, the score
of the report returned by `checkContent` lies in `[0, 100]`. -/
theorem checkContent_score_in_range (co : ContrastOracle)
    (lo : LuminosityOracle) (io : ImageOracle) (go : ContentOracle)
    (content : String) (images : List ImageInput) :
    0 ≤ (checkContent co lo io go content images).score
      ∧ (checkContent co lo io go content images).score ≤ 100 := by
  have h : ∀ results : List ValidationResult,
      0 ≤ calculateScore results ∧ calculateScore results ≤ 100 := by
    intro results
    unfold calculateScore
    constructor
    · exact le_max_left 0 _
    · apply max_le (by norm_num)
      have hnn : (0 : Int) ≤
          ((results.filter fun r => !r.passed).foldl
            (fun sum r => sum + severityWeight r.severity) 0 : Nat) :=
        Int.natCast_nonneg _
      omega
  simpa only [checkContent] using h (validateContent co content images)

/-! ## Concrete oracles and inputs for the counterexamples and witnesses -/

/-- A contrast oracle that reports every colour pair as unparsable (never
consulted on the inputs below, which contain no inline styles). -/
def trivialContrastOracle : ContrastOracle := fun _ _ => .parseFailure

/-- A luminosity oracle that reports every colour as unparsable. -/
def trivialLuminosityOracle : LuminosityOracle := fun _ => .parseFailure

/-- A content-analysis oracle whose provider call fails. -/
def errorContentOracle : ContentOracle := fun _ => .error ()

/-- An image oracle whose provider call always fails. -/
def errorImageOracle : ImageOracle := fun _ _ _ _ => .error ()

/-- An image oracle reporting a non-decorative image that contains text. -/
def textyImageOracle : ImageOracle := fun _ _ _ _ => .ok
  { altText := "A mountain photo", confidence := .high,
    description := "d", context := "c", decorative := false,
    textContent := some "Peak",
    accessibility :=
      { hasText := true, isComplex := false, needsLongDescription := false,
        suggestedLongDescription := none } }

/-- An image oracle reporting a plain non-decorative image without text. -/
def plainImageOracle : ImageOracle := fun _ _ _ _ => .ok
  { altText := "A photo", confidence := .high,
    description := "d", context := "c", decorative := false,
    textContent := none,
    accessibility :=
      { hasText := false, isComplex := false, needsLongDescription := false,
        suggestedLongDescription := none } }

/-- Image descriptor with a well-described alt and image data attached. -/
def mountainImage : ImageInput :=
  { src := "a.jpg", alt := some "A mountain", data := some "d",
    mimeType := some "image/png" }

/-- Image descriptor with no alt but with image data attached. -/
def noAltDataImage : ImageInput :=
  { src := "a.jpg", alt := none, data := some "d",
    mimeType := some "image/png" }

/-- Image descriptor with neither alt nor image data. -/
def bareImage : ImageInput :=
  { src := "a.jpg", alt := none, data := none, mimeType := none }

/-! ## Claim C3 -/

/-- C3 counterexample: on a content whose rule validation passes entirely,
the AI path contributes a high-severity text-in-image issue to the merged
list, yet the returned score is 100 — not the 85 the claim's
merged-list scoring formula demands.  The score is therefore not computed
from the merged issue list. -/
theorem checkContent_score_ignores_ai_issues :
    (checkContent trivialContrastOracle trivialLuminosityOracle
        textyImageOracle errorContentOracle
        "<h1>Title</h1><img src=\"a.jpg\" alt=\"A mountain\">"
        [mountainImage]).issues
      = [{ id := "text-in-image-0", type := .altText, severity := .high,
           element := "Image 1",
           description := "Image contains text but no text alternative is provided",
           recommendation := "Provide text alternative: \"Peak\"",
           autoFixable := true }]
    ∧ (checkContent trivialContrastOracle trivialLuminosityOracle
        textyImageOracle errorContentOracle
        "<h1>Title</h1><img src=\"a.jpg\" alt=\"A mountain\">"
        [mountainImage]).score = 100
    ∧ specScoreOfIssues (checkContent trivialContrastOracle
        trivialLuminosityOracle textyImageOracle errorContentOracle
        "<h1>Title</h1><img src=\"a.jpg\" alt=\"A mountain\">"
        [mountainImage]).issues = 85 := by
  refine ⟨by decide, by decide, by decide⟩

/-- C3 amended: the score of the report is computed from the rule-validation
results alone — `calculateScore(wcagResults)` — and is therefore independent
of the AI oracles; AI-derived issues in the merged list contribute nothing to
the score deduction. -/
theorem checkContent_score_from_rule_results (co : ContrastOracle)
    (lo lo' : LuminosityOracle) (io io' : ImageOracle) (go go' : ContentOracle)
    (content : String) (images : List ImageInput) :
    (checkContent co lo io go content images).score
      = calculateScore (validateContent co content images)
    ∧ (checkContent co lo io go content images).score
      = (checkContent co lo' io' go' content images).score := by
  constructor <;> simp only [checkContent]

/-! ## Claim C4 -/

/-- C4 counterexample: on a content with a heading-level skip and an
analyzable no-alt image, the merged list interleaves the checker's own
deterministic heading issue after the AI image issue, so the list is not the
claimed three-segment concatenation rule → AI-image → AI-content. -/
theorem checkContent_order_not_three_segments :
    ((checkContent trivialContrastOracle trivialLuminosityOracle
        plainImageOracle errorContentOracle
        "<h1>Title</h1><h3>Sub</h3><img src=\"a.jpg\">"
        [noAltDataImage]).issues.map fun i => i.id)
      = ["wcag-1.1.1-0", "wcag-1.3.1-1", "ai-alt-text-0", "heading-skip-1"]
    ∧ (checkContent trivialContrastOracle trivialLuminosityOracle
        plainImageOracle errorContentOracle
        "<h1>Title</h1><h3>Sub</h3><img src=\"a.jpg\">"
        [noAltDataImage]).issues
      ≠ ruleIssueSegment trivialContrastOracle
          "<h1>Title</h1><h3>Sub</h3><img src=\"a.jpg\">" [noAltDataImage]
        ++ aiImageIssueSegment plainImageOracle
          "<h1>Title</h1><h3>Sub</h3><img src=\"a.jpg\">" [noAltDataImage]
        ++ aiContentIssueSegment errorContentOracle
          "<h1>Title</h1><h3>Sub</h3><img src=\"a.jpg\">" := by
  refine ⟨by decide, by decide⟩

/-- C4 amended: the merged issue list is the concatenation of five contiguous
segments in this fixed order — rule-validation issues (in the validator's
check order images → headings → contrast → semantic → ARIA), AI per-image
issues (in image list order), the checker's own heading-structure issues, the
checker's own contrast issues, and AI content-analysis issues (in provider
order).  The list is a deterministic function of the oracles' responses, so
it does not depend on the completion order of the AI tasks. -/
theorem checkContent_issue_order (co : ContrastOracle) (lo : LuminosityOracle)
    (io : ImageOracle) (go : ContentOracle) (content : String)
    (images : List ImageInput) :
    (checkContent co lo io go content images).issues
      = ruleIssueSegment co content images
        ++ aiImageIssueSegment io content images
        ++ checkHeadingStructure content
        ++ checkColorContrast lo content
        ++ aiContentIssueSegment go content := by
  simp only [checkContent, ruleIssueSegment, aiImageIssueSegment,
    aiContentIssueSegment, List.append_assoc]

/-! ## Claim C5 -/

/-- C5: a failing image analysis (exception or timeout) is replaced by the
neutral low-confidence placeholder (`decorative = false`, the generic
alt text, `confidence = low`) instead of propagating; and a report computed
with the oracle failing at image `i` equals the report computed when image
`i`'s analysis is the placeholder while every other oracle response is
unchanged — so the other images' analyses, the content analysis and the rest
of the report are unaffected and a complete report is still produced. -/
theorem analyzeImage_failure_isolated (co : ContrastOracle)
    (lo : LuminosityOracle) (io io' : ImageOracle) (go : ContentOracle)
    (content : String) (images : List ImageInput) (i : Nat)
    (hfail : ∀ d m c, io i d m c = Except.error ())
    (hfb : ∀ d m c, io' i d m c = Except.ok getFallbackAnalysis)
    (hagree : ∀ j, j ≠ i → io j = io' j) :
    (∀ u : Unit, analyzeImage (Except.error u) = getFallbackAnalysis)
    ∧ getFallbackAnalysis.decorative = false
    ∧ getFallbackAnalysis.confidence = Confidence.low
    ∧ getFallbackAnalysis.altText = "Image description not available"
    ∧ checkContent co lo io go content images
        = checkContent co lo io' go content images := by
  refine ⟨fun u => rfl, rfl, rfl, rfl, ?_⟩
  have hanalyze : ∀ j d m c,
      analyzeImage (io j d m c) = analyzeImage (io' j d m c) := by
    intro j d m c
    by_cases hj : j = i
    · subst hj
      rw [hfail, hfb]
      rfl
    · rw [hagree j hj]
  have hpass := aiImagePass_congr io io' content images hanalyze
  simp only [checkContent, hpass]

/-- Witness for C5 at a concrete input: one image whose provider call fails
while a sibling oracle returns the placeholder for it. -/
theorem analyzeImage_failure_isolated_witness :
    (∀ u : Unit, analyzeImage (Except.error u) = getFallbackAnalysis)
    ∧ getFallbackAnalysis.decorative = false
    ∧ getFallbackAnalysis.confidence = Confidence.low
    ∧ getFallbackAnalysis.altText = "Image description not available"
    ∧ checkContent trivialContrastOracle trivialLuminosityOracle
        (fun j _ _ _ => if j = 0 then .error () else
          .ok getFallbackAnalysis)
        errorContentOracle "<h1>Title</h1><img src=\"a.jpg\">" [noAltDataImage]
      = checkContent trivialContrastOracle trivialLuminosityOracle
        (fun j _ _ _ => if j = 0 then .ok getFallbackAnalysis else
          .ok getFallbackAnalysis)
        errorContentOracle "<h1>Title</h1><img src=\"a.jpg\">" [noAltDataImage] :=
  analyzeImage_failure_isolated trivialContrastOracle trivialLuminosityOracle
    (fun j _ _ _ => if j = 0 then .error () else .ok getFallbackAnalysis)
    (fun j _ _ _ => if j = 0 then .ok getFallbackAnalysis else
      .ok getFallbackAnalysis)
    errorContentOracle "<h1>Title</h1><img src=\"a.jpg\">" [noAltDataImage] 0
    (fun _ _ _ => rfl) (fun _ _ _ => rfl)
    (fun j hj => by
      funext d m c
      simp [if_neg hj])

/-! ## Claim C6 -/

/-- C6 counterexample: for `<img src="a.jpg">` with an alt-less image and no
AI context, the report contains two issues (the missing-alt issue and a
missing-H1 heading issue), not exactly one. -/
theorem checkContent_noAlt_two_issues :
    (checkContent trivialContrastOracle trivialLuminosityOracle
        errorImageOracle errorContentOracle "<img src=\"a.jpg\">"
        [bareImage]).issues.length = 2 := by
  decide

/-- C6 amended: for `<img src="a.jpg">` with an alt-less image and no AI
context, the report contains exactly two issues — a high-severity,
auto-fixable alt-text issue for the image, followed by a high-severity
missing-H1 heading issue. -/
theorem checkContent_noAlt_issues :
    (checkContent trivialContrastOracle trivialLuminosityOracle
        errorImageOracle errorContentOracle "<img src=\"a.jpg\">"
        [bareImage]).issues
      = [{ id := "wcag-1.1.1-0", type := .altText, severity := .high,
           element := "Image 1 (a.jpg)",
           description := "Image is missing alt text",
           recommendation := "Add descriptive alt text that conveys the purpose and content of the image",
           autoFixable := true },
         { id := "wcag-2.4.6-1", type := .heading, severity := .high,
           element := "Content element",
           description := "Page is missing an H1 heading",
           recommendation := "Add a main H1 heading that describes the page content",
           autoFixable := false }] := by
  decide

/-! ## Claim C7 -/

/-- C7: for `<h1>Title</h1><h3>Sub</h3>` with no images and no AI
contribution, the report contains exactly one heading-typed issue; it has
severity medium and its message records the skip from heading level 1 to
heading level 3. -/
theorem checkContent_heading_skip :
    (checkContent trivialContrastOracle trivialLuminosityOracle
        errorImageOracle errorContentOracle "<h1>Title</h1><h3>Sub</h3>"
        []).issues.filter (fun i => i.type == .heading)
      = [{ id := "heading-skip-1", type := .heading, severity := .medium,
           element := "Heading 2",
           description := "Heading level skips from h1 to h3",
           recommendation := "Use h2 instead of h3",
           autoFixable := true }] := by
  decide

/-! ## Claim C8 -/

/-- Membership after one `setAdd`. -/
theorem mem_setAdd (acc : List String) (a x : String) :
    x ∈ setAdd acc a ↔ x ∈ acc ∨ x = a := by
  unfold setAdd
  by_cases h : a ∈ acc
  · simp only [if_pos h]
    constructor
    · exact Or.inl
    · rintro (hx | rfl)
      · exact hx
      · exact h
  · simp [if_neg h]

/-- Membership in a `setAdd` fold: exactly the start set plus the added
elements. -/
theorem mem_foldl_setAdd (l : List String) :
    ∀ (acc : List String) (x : String),
      x ∈ l.foldl setAdd acc ↔ x ∈ acc ∨ x ∈ l := by
  induction l with
  | nil => intro acc x; simp
  | cons a t ih =>
    intro acc x
    simp only [List.foldl_cons, ih, mem_setAdd, List.mem_cons]
    tauto

/-- A `setAdd` fold preserves `Nodup`. -/
theorem nodup_foldl_setAdd (l : List String) :
    ∀ acc : List String, acc.Nodup → (l.foldl setAdd acc).Nodup := by
  induction l with
  | nil => intro acc hacc; simpa using hacc
  | cons a t ih =>
    intro acc hacc
    simp only [List.foldl_cons]
    apply ih
    unfold setAdd
    by_cases h : a ∈ acc
    · simpa [if_pos h] using hacc
    · simp [if_neg h, List.nodup_append, hacc, h]

/-- A `setAdd` fold is the start set followed by the first-occurrence
deduplication of the added elements not already present. -/
theorem foldl_setAdd_eq_firstDedup (l : List String) :
    ∀ acc : List String,
      l.foldl setAdd acc
        = acc ++ firstDedup (l.filter fun s => decide (s ∉ acc)) := by
  induction l with
  | nil => intro acc; simp [firstDedup]
  | cons a t ih =>
    intro acc
    simp only [List.foldl_cons, List.filter_cons]
    by_cases h : a ∈ acc
    · have hsa : setAdd acc a = acc := by simp [setAdd, h]
      have hda : (decide (a ∉ acc)) = false := by simp [h]
      rw [hsa, hda]
      simpa using ih acc
    · have hsa : setAdd acc a = acc ++ [a] := by simp [setAdd, h]
      have hda : (decide (a ∉ acc)) = true := by simp [h]
      rw [hsa, hda, ih (acc ++ [a])]
      simp only [if_true]
      rw [firstDedup]
      have hfilter : (t.filter fun s => decide (s ∉ acc ++ [a]))
          = ((t.filter fun s => decide (s ∉ acc)).filter fun s => s != a) := by
        rw [List.filter_filter]
        apply List.filter_congr
        intro s _
        by_cases hsa2 : s = a
        · subst hsa2
          simp
        · by_cases hsacc : s ∈ acc <;> simp [hsa2, hsacc]
      rw [hfilter]
      simp [List.append_assoc]

/-- `generateEnhancedSuggestions` is the `setAdd` fold of the source-ordered
insertion sequence. -/
theorem generateEnhancedSuggestions_eq_foldl
    (issues : List AccessibilityIssue)
    (imageAnalyses : List (String × ImageAnalysis)) :
    generateEnhancedSuggestions issues imageAnalyses
      = (suggestionSequence issues imageAnalyses).foldl setAdd [] := by
  unfold generateEnhancedSuggestions suggestionSequence
  rw [← List.foldl_map (fun issue : AccessibilityIssue => issue.recommendation)
    setAdd]
  by_cases h1 : (issues.map fun issue => issue.type).contains .altText
    <;> by_cases h2 :
      (imageAnalyses.filter fun img => img.2.decorative).length > 0
    <;> by_cases h3 : (issues.map fun issue => issue.type).contains .contrast
    <;> by_cases h4 : (issues.map fun issue => issue.type).contains .heading
    <;> by_cases h5 :
      (imageAnalyses.filter fun img => img.2.accessibility.hasText).length > 0
    <;> by_cases h6 : (imageAnalyses.filter fun img =>
      img.2.accessibility.needsLongDescription).length > 0
    <;> simp only [h1, h2, h3, h4, h5, h6, Bool.false_eq_true, if_true,
      if_false, eq_self_iff_true, not_false_iff, List.foldl_append,
      List.foldl_cons, List.foldl_nil, List.append_nil, List.nil_append]

/-- C8: the suggestion list contains every issue's `recommendation`
verbatim, contains no duplicates, and is the first-occurrence deduplication
(insertion order) of the sequence of `add` calls. -/
theorem generateEnhancedSuggestions_spec (issues : List AccessibilityIssue)
    (imageAnalyses : List (String × ImageAnalysis)) :
    (∀ issue ∈ issues,
      issue.recommendation ∈ generateEnhancedSuggestions issues imageAnalyses)
    ∧ (generateEnhancedSuggestions issues imageAnalyses).Nodup
    ∧ generateEnhancedSuggestions issues imageAnalyses
        = firstDedup (suggestionSequence issues imageAnalyses) := by
  have hfold := generateEnhancedSuggestions_eq_foldl issues imageAnalyses
  refine ⟨?_, ?_, ?_⟩
  · intro issue hmem
    rw [hfold]
    apply (mem_foldl_setAdd _ _ _).2
    right
    unfold suggestionSequence
    apply List.mem_append_left
    apply List.mem_append_left
    apply List.mem_append_left
    apply List.mem_append_left
    apply List.mem_append_left
    exact List.mem_map_of_mem _ hmem
  · rw [hfold]
    exact nodup_foldl_setAdd _ _ List.nodup_nil
  · rw [hfold, foldl_setAdd_eq_firstDedup]
    have hfilter : ((suggestionSequence issues imageAnalyses).filter
        fun s => decide (s ∉ ([] : List String)))
        = suggestionSequence issues imageAnalyses := by
      simp
    rw [hfilter]
    simp

/-- Witness for C8 at a concrete issue list. -/
theorem generateEnhancedSuggestions_spec_witness :
    ("Fix the landmark roles" ∈ generateEnhancedSuggestions
        [{ id := "gemini-0", type := .aria, severity := .low,
           element := "Content element", description := "d",
           recommendation := "Fix the landmark roles", autoFixable := false }]
        [])
    ∧ (generateEnhancedSuggestions
        [{ id := "gemini-0", type := .aria, severity := .low,
           element := "Content element", description := "d",
           recommendation := "Fix the landmark roles", autoFixable := false }]
        []).Nodup
    ∧ generateEnhancedSuggestions
        [{ id := "gemini-0", type := .aria, severity := .low,
           element := "Content element", description := "d",
           recommendation := "Fix the landmark roles", autoFixable := false }]
        []
      = firstDedup (suggestionSequence
        [{ id := "gemini-0", type := .aria, severity := .low,
           element := "Content element", description := "d",
           recommendation := "Fix the landmark roles", autoFixable := false }]
        []) := by
  refine ⟨?_, ?_, ?_⟩
  · exact (generateEnhancedSuggestions_spec _ _).1
      { id := "gemini-0", type := .aria, severity := .low,
        element := "Content element", description := "d",
        recommendation := "Fix the landmark roles", autoFixable := false }
      (by simp)
  · exact (generateEnhancedSuggestions_spec _ _).2.1
  · exact (generateEnhancedSuggestions_spec _ _).2.2

/-! ## Claim C9 -/

/-- C9: the image checks emit at most one `ValidationResult` per image, and
the three checks are mutually exclusive with missing-alt taking priority over
excessive length and excessive length over genericity. -/
theorem validateImage_exclusive :
    (∀ images : List ImageInput,
      validateImages images
        = (images.enum.map fun p => validateImage p.1 p.2).flatten)
    ∧ (∀ (index : Nat) (img : ImageInput),
        (validateImage index img).length ≤ 1)
    ∧ (∀ (index : Nat) (img : ImageInput), altIsMissing img.alt = true →
        validateImage index img
          = [{ ruleId := "1.1.1", passed := false, severity := .high,
               element := some (imageElementLabel index img),
               message := "Image is missing alt text",
               suggestion := "Add descriptive alt text that conveys the purpose and content of the image",
               autoFixable := true }])
    ∧ (∀ (index : Nat) (img : ImageInput), altIsMissing img.alt = false →
        (img.alt.getD "").length > 125 →
        validateImage index img
          = [{ ruleId := "1.1.1", passed := false, severity := .medium,
               element := some (imageElementLabel index img),
               message := "Alt text is too long (over 125 characters)",
               suggestion := "Shorten alt text while maintaining essential information",
               autoFixable := true }])
    ∧ (∀ (index : Nat) (img : ImageInput), altIsMissing img.alt = false →
        ¬(img.alt.getD "").length > 125 →
        isGenericAltText (img.alt.getD "") = true →
        validateImage index img
          = [{ ruleId := "1.1.1", passed := false, severity := .medium,
               element := some (imageElementLabel index img),
               message := "Alt text appears to be generic or non-descriptive",
               suggestion := "Use more specific, descriptive alt text that explains the image content",
               autoFixable := true }])
    ∧ (∀ (index : Nat) (img : ImageInput), altIsMissing img.alt = false →
        ¬(img.alt.getD "").length > 125 →
        isGenericAltText (img.alt.getD "") = false →
        validateImage index img = []) := by
  refine ⟨fun images => rfl, ?_, ?_, ?_, ?_, ?_⟩
  · intro index img
    unfold validateImage
    split_ifs <;> simp
  · intro index img h
    simp [validateImage, h]
  · intro index img h hlen
    simp [validateImage, h, hlen]
  · intro index img h hlen hgen
    simp [validateImage, h, hlen, hgen]
  · intro index img h hlen hgen
    simp [validateImage, h, hlen, hgen]

/-- Witness for C9: the four regimes at concrete images (alt absent, alt of
126 characters, generic alt, descriptive alt). -/
theorem validateImage_exclusive_witness :
    validateImage 0 bareImage
      = [{ ruleId := "1.1.1", passed := false, severity := .high,
           element := some (imageElementLabel 0 bareImage),
           message := "Image is missing alt text",
           suggestion := "Add descriptive alt text that conveys the purpose and content of the image",
           autoFixable := true }]
    ∧ validateImage 1
        { src := "b.jpg", alt := some (String.mk (List.replicate 126 'a')),
          data := none, mimeType := none }
      = [{ ruleId := "1.1.1", passed := false, severity := .medium,
           element := some (imageElementLabel 1
             { src := "b.jpg",
               alt := some (String.mk (List.replicate 126 'a')),
               data := none, mimeType := none }),
           message := "Alt text is too long (over 125 characters)",
           suggestion := "Shorten alt text while maintaining essential information",
           autoFixable := true }]
    ∧ validateImage 2
        { src := "c.jpg", alt := some "photo", data := none, mimeType := none }
      = [{ ruleId := "1.1.1", passed := false, severity := .medium,
           element := some (imageElementLabel 2
             { src := "c.jpg", alt := some "photo", data := none,
               mimeType := none }),
           message := "Alt text appears to be generic or non-descriptive",
           suggestion := "Use more specific, descriptive alt text that explains the image content",
           autoFixable := true }]
    ∧ validateImage 3
        { src := "d.jpg", alt := some "A mountain peak at dawn",
          data := none, mimeType := none } = [] := by
  refine ⟨?_, ?_, ?_, ?_⟩
  · exact validateImage_exclusive.2.2.1 0 bareImage (by decide)
  · exact validateImage_exclusive.2.2.2.1 1 _ (by decide) (by decide)
  · exact validateImage_exclusive.2.2.2.2.1 2 _ (by decide) (by decide)
      (by decide)
  · exact validateImage_exclusive.2.2.2.2.2 3 _ (by decide) (by decide)
      (by decide)

/-! ## Claim C10 -/

/-- C10: an image whose descriptor lacks `data` or lacks `mimeType`
contributes neither an `imageAnalyses` entry nor an AI-derived issue (its
loop iteration is skipped entirely — the report's analyses are exactly the
per-image contributions, and this image's contribution is empty), while the
rule-based image checks are unaffected by the missing fields. -/
theorem checkContent_skips_dataless_image (co : ContrastOracle)
    (lo : LuminosityOracle) (io : ImageOracle) (go : ContentOracle)
    (content : String) (images : List ImageInput) (i : Nat)
    (hi : i < images.length)
    (hmissing : (images.get ⟨i, hi⟩).data = none
      ∨ (images.get ⟨i, hi⟩).mimeType = none) :
    aiImageContribution io content i (images.get ⟨i, hi⟩) = ([], [])
    ∧ (checkContent co lo io go content images).imageAnalyses
        = (images.enum.map fun p =>
            (aiImageContribution io content p.1 p.2).1).flatten
    ∧ (∀ index : Nat,
        validateImage index (images.get ⟨i, hi⟩)
          = validateImage index
              { src := (images.get ⟨i, hi⟩).src,
                alt := (images.get ⟨i, hi⟩).alt,
                data := none, mimeType := none }) := by
  refine ⟨?_, ?_, fun index => rfl⟩
  · rcases hmissing with hd | hm
    · unfold aiImageContribution
      rw [hd]
    · unfold aiImageContribution
      rw [hm]
      cases (images.get ⟨i, hi⟩).data <;> rfl
  · simp only [checkContent, aiImagePass_eq]

/-- Witness for C10: a descriptor with a `mimeType` but no `data`. -/
theorem checkContent_skips_dataless_image_witness :
    aiImageContribution plainImageOracle "<p>x</p>" 0
        { src := "a.jpg", alt := some "x", data := none,
          mimeType := some "image/png" } = ([], [])
    ∧ validateImage 0
        { src := "a.jpg", alt := some "x", data := none,
          mimeType := some "image/png" }
      = validateImage 0
          { src := "a.jpg", alt := some "x", data := none,
            mimeType := none } := by
  have h := checkContent_skips_dataless_image trivialContrastOracle
    trivialLuminosityOracle plainImageOracle errorContentOracle "<p>x</p>"
    [{ src := "a.jpg", alt := some "x", data := none,
       mimeType := some "image/png" }] 0 (by decide) (Or.inl rfl)
  exact ⟨h.1, h.2.2 0⟩
